import Mathlib

/-!
# Verification of the search-mcp aggregator core

Shallow embedding of the security / dispatch pipeline of the `search-mcp`
MCP aggregator, together with proofs about it.  Each definition mirrors one
function of the TypeScript source:

* `sanitizeParameters`, `logToolExecutionEvent` — `src/monitoring/audit-logger.ts`
* `toMCPError`, `shapeError` — `src/errors.ts` and the error shaping in
  `src/index.ts` (`handleRequest`)
* `refillBucket`, `checkLimit` — `src/security/rate-limiter.ts`
* `hasPermission` — `src/security/auth-manager.ts`
* `startAll`, `executeTool`, `childEnvLookup`, `isRunning` —
  `src/mcp/mcp-client-manager.ts` and `src/mcp/mcp-client.ts`
* `executeParallel` — `src/performance/parallel-executor.ts`
* `validateToolParameters` — `src/security/input-validator.ts`

JavaScript floating point numbers are modelled by `ℚ` (with an explicit
`nan` constructor inside JSON values where `isNaN` matters), JS objects by
association lists with distinct keys, and JS string operations by their
Lean counterparts (all strings involved are ASCII).
-/

namespace SearchMCP

/-- JSON values as they travel through the aggregator (tool arguments,
audit details, …).  `nan` models the JS `NaN` float, which has
`typeof === 'number'` but fails `isNaN`-guarded checks. -/
inductive JValue where
  | null
  | bool (b : Bool)
  | num (q : ℚ)
  | nan
  | str (s : String)
  | arr (elems : List JValue)
  | obj (fields : List (String × JValue))
deriving BEq

/-- Does `l` start with `sub`? -/
def charsStartWith : List Char → List Char → Bool
  | _, [] => true
  | [], _ :: _ => false
  | a :: as, b :: bs => a == b && charsStartWith as bs

/-- Does `sub` occur contiguously inside `l`? -/
def charsContain (l sub : List Char) : Bool :=
  match l with
  | [] => sub.isEmpty
  | _ :: rest => charsStartWith l sub || charsContain rest sub

/-- JS `String.prototype.includes` (substring containment). -/
def jsIncludes (s sub : String) : Bool :=
  charsContain s.toList sub.toList

/-- JS `String.prototype.toLowerCase` (ASCII case folding suffices here). -/
def jsToLowerCase (s : String) : String :=
  String.mk (s.toList.map Char.toLower)

/-! ## Audit logger (`src/monitoring/audit-logger.ts`) -/

/-- The `sensitiveKeys` array of `AuditLogger.sanitizeParameters`
(audit-logger.ts line 441), verbatim — note the mixed-case `"apiKey"`. -/
def sensitiveKeys : List String :=
  ["password", "secret", "token", "apiKey", "api_key"]

/-- `sensitiveKeys.some(sk => key.toLowerCase().includes(sk))`
(audit-logger.ts line 444). -/
def isSensitiveKey (key : String) : Bool :=
  sensitiveKeys.any (fun sk => jsIncludes (jsToLowerCase key) sk)

/-- `AuditLogger.sanitizeParameters` (audit-logger.ts lines 439–450):
copies the parameter map, replacing the value of every sensitive key with
the literal `***REDACTED***`. -/
def sanitizeParameters (params : List (String × JValue)) : List (String × JValue) :=
  params.map (fun kv =>
    if isSensitiveKey kv.1 then (kv.1, JValue.str "***REDACTED***") else kv)

/-- The part of an audit event relevant here: `type`, `level`, `action`,
`result` and the redacted `details.parameters` map. -/
structure AuditEventShape where
  type : String
  level : String
  action : String
  result : String
  detailsParameters : List (String × JValue)

/-- `AuditLogger.logToolExecution` (audit-logger.ts lines 123–150), reduced
to the event fields it populates: a `tool_execution` event whose
`details.parameters` is the sanitized argument map. -/
def logToolExecutionEvent (result : String) (parameters : List (String × JValue)) :
    AuditEventShape :=
  { type := "tool_execution"
    level := if result = "success" then "info" else "error"
    action := "execute"
    result := result
    detailsParameters := sanitizeParameters parameters }

/-- `AuditLogger.logRateLimit` (audit-logger.ts lines 214–230): a
`rate_limit` / `warn` / `failure` event. -/
def logRateLimitEvent : AuditEventShape :=
  { type := "rate_limit"
    level := "warn"
    action := "rate_limit_exceeded"
    result := "failure"
    detailsParameters := [] }

/-- C1: calling a tool with arguments `apiKey = "SECRET"`, `q = "ok"` must
produce an audit event whose `details.parameters.apiKey` is
`***REDACTED***`.  The code does NOT do this: `sanitizeParameters`
lower-cases the key and then searches for the mixed-case literal
`"apiKey"`, which can never occur in a lower-cased string, so the `apiKey`
argument passes through unredacted (only `password`, `secret`, `token` and
`api_key` are live entries of `sensitiveKeys`). -/
theorem c1_apiKey_not_redacted :
    (logToolExecutionEvent "success"
        [("apiKey", JValue.str "SECRET"), ("q", JValue.str "ok")]).detailsParameters
      = [("apiKey", JValue.str "SECRET"), ("q", JValue.str "ok")] := by
  rfl

/-! ## Error taxonomy and JSON-RPC error shaping
(`src/errors.ts`, `src/index.ts` lines 342–357) -/

/-- The data an `MCPError` carries (`src/errors.ts`): message, string code,
HTTP-equivalent status code, structured details. -/
structure MCPErrorData where
  message : String
  code : String
  statusCode : Int
  details : Option JValue

/-- A thrown JS error is either a plain `Error` (only a message) or a typed
`MCPError`. -/
inductive Thrown where
  | plain (message : String)
  | mcp (e : MCPErrorData)

/-- `toMCPError` (errors.ts lines 139–153): typed errors pass through, any
plain `Error` becomes an `MCPError` with code `INTERNAL_ERROR` and status
500. -/
def toMCPError : Thrown → MCPErrorData
  | .plain msg => { message := msg, code := "INTERNAL_ERROR", statusCode := 500, details := none }
  | .mcp e => e

/-- The JSON-RPC error object the dispatcher sends:
`{code, message, data: {code, details}}`. -/
structure JsonRpcErrorOut where
  code : Int
  message : String
  dataCode : String
  dataDetails : Option JValue

/-- Error shaping in `handleRequest` (index.ts lines 342–357): status 400
maps to `-32602`, status 404 to `-32601`, everything else to `-32000`; the
`data` object carries the typed error's code and details. -/
def shapeError (t : Thrown) : JsonRpcErrorOut :=
  let e := toMCPError t
  let jsonRpcCode : Int :=
    if e.statusCode = 400 then -32602
    else if e.statusCode = 404 then -32601
    else -32000
  { code := jsonRpcCode, message := e.message, dataCode := e.code, dataDetails := e.details }

/-! ## Rate limiter (`src/security/rate-limiter.ts`)

JS floats are modelled by `ℚ`; `Date.now()` timestamps are `ℚ`
milliseconds. -/

/-- A token bucket (rate-limiter.ts lines 18–23). -/
structure TokenBucket where
  tokens : ℚ
  lastRefill : ℚ
  maxTokens : ℚ
  refillRate : ℚ

/-- The result of `checkLimit` (rate-limiter.ts lines 11–16).
`retryAfter` is in whole seconds (`Math.ceil`). -/
structure RateLimitResult where
  allowed : Bool
  remaining : Int
  resetAt : ℚ
  retryAfter : Option Int

/-- `RateLimiter.refillBucket` (rate-limiter.ts lines 83–94):
`tokens = min(maxTokens, tokens + elapsedSeconds * refillRate)`,
`lastRefill = now`. -/
def refillBucket (now : ℚ) (b : TokenBucket) : TokenBucket :=
  let elapsedSeconds := (now - b.lastRefill) / 1000
  let tokensToAdd := elapsedSeconds * b.refillRate
  { b with tokens := min b.maxTokens (b.tokens + tokensToAdd), lastRefill := now }

/-- `RateLimiter.calculateResetTime` (rate-limiter.ts lines 99–103). -/
def calculateResetTime (now : ℚ) (b : TokenBucket) : ℚ :=
  now + (b.maxTokens - b.tokens) / b.refillRate * 1000

/-- The body of `RateLimiter.checkLimit` on an existing bucket
(rate-limiter.ts lines 55–78): refill, then either deduct `cost` (allow)
or deny with `retryAfter = ceil(((cost - tokens)/refillRate * 1000) / 1000)`
seconds. -/
def checkLimit (now cost : ℚ) (b : TokenBucket) : TokenBucket × RateLimitResult :=
  let b := refillBucket now b
  if b.tokens ≥ cost then
    let b' := { b with tokens := b.tokens - cost }
    (b', { allowed := true, remaining := ⌊b'.tokens⌋,
           resetAt := calculateResetTime now b', retryAfter := none })
  else
    let retryAfterMs := (cost - b.tokens) / b.refillRate * 1000
    (b, { allowed := false, remaining := 0,
          resetAt := calculateResetTime now b,
          retryAfter := some ⌈retryAfterMs / 1000⌉ })

/-- Bucket creation in `checkLimit` (rate-limiter.ts lines 45–53): a fresh
bucket starts full. -/
def newBucket (now : ℚ) (maxTokens refillRate : ℚ) : TokenBucket :=
  { tokens := maxTokens, lastRefill := now, maxTokens := maxTokens, refillRate := refillRate }

/-- A sequence of `checkLimit` calls against one bucket: each call carries
its `Date.now()` timestamp and its cost. -/
def runCalls (b : TokenBucket) : List (ℚ × ℚ) → TokenBucket
  | [] => b
  | (now, cost) :: rest => runCalls (checkLimit now cost b).1 rest

/-! ## The `tools/call` rate-limit branch (`src/index.ts` lines 238–250) -/

/-- JS number-to-string of the integral `retryAfter` interpolated into the
thrown message. -/
def intToDecimalString (n : Int) : String := toString n

/-- The deny branch of `tools/call` (index.ts lines 243–250): the
dispatcher audits via `logRateLimit` and then throws a **plain** `Error`
with the retry-after baked into the message; the `catch` at the bottom of
`handleRequest` shapes that thrown error into the JSON-RPC reply. -/
def toolsCallRateLimitDeny (rl : RateLimitResult) : AuditEventShape × JsonRpcErrorOut :=
  let thrown := Thrown.plain
    ("Rate limit exceeded. Retry after "
      ++ (match rl.retryAfter with
          | some n => intToDecimalString n
          | none => "undefined")
      ++ " seconds.")
  (logRateLimitEvent, shapeError thrown)

/-- C2: on a rate-limit denial the dispatcher does audit a `rate_limit`
event, but — because it throws a plain `Error` instead of the taxonomy's
`RateLimitError` — the JSON-RPC reply carries `data.code =
"INTERNAL_ERROR"` (not `"RATE_LIMIT_EXCEEDED"`) and no
`data.details.retryAfter`.  Evaluated at a concrete denied call (empty
bucket, `maxTokens = 2`, `refillRate = 1`, cost 1). -/
theorem c2_rate_limit_error_shape :
    (checkLimit 0 1 { tokens := 0, lastRefill := 0, maxTokens := 2, refillRate := 1 }).2.allowed
        = false ∧
    (checkLimit 0 1 { tokens := 0, lastRefill := 0, maxTokens := 2, refillRate := 1 }).2.retryAfter
        = some 1 ∧
    (toolsCallRateLimitDeny
        (checkLimit 0 1 { tokens := 0, lastRefill := 0, maxTokens := 2, refillRate := 1 }).2).1.type
        = "rate_limit" ∧
    (toolsCallRateLimitDeny
        (checkLimit 0 1 { tokens := 0, lastRefill := 0, maxTokens := 2, refillRate := 1 }).2).2.code
        = -32000 ∧
    (toolsCallRateLimitDeny
        (checkLimit 0 1 { tokens := 0, lastRefill := 0, maxTokens := 2, refillRate := 1 }).2).2.dataCode
        = "INTERNAL_ERROR" ∧
    "INTERNAL_ERROR" ≠ "RATE_LIMIT_EXCEEDED" ∧
    (toolsCallRateLimitDeny
        (checkLimit 0 1 { tokens := 0, lastRefill := 0, maxTokens := 2, refillRate := 1 }).2).2.dataDetails
        = none ∧
    (toolsCallRateLimitDeny
        (checkLimit 0 1 { tokens := 0, lastRefill := 0, maxTokens := 2, refillRate := 1 }).2).2.message
        = "Rate limit exceeded. Retry after 1 seconds." := by
  have h : (checkLimit 0 1 { tokens := 0, lastRefill := 0, maxTokens := 2, refillRate := 1 }).2
      = { allowed := false, remaining := 0, resetAt := 2000, retryAfter := some 1 } := by
    norm_num [checkLimit, refillBucket, calculateResetTime]
  rw [h]
  exact ⟨rfl, rfl, rfl, rfl, rfl, by decide, rfl, rfl⟩

/-- One `checkLimit` call preserves the token-bucket bounds and leaves the
configuration fields untouched. -/
theorem checkLimit_preserves_inv (now cost : ℚ) (b : TokenBucket)
    (hrate : 0 ≤ b.refillRate) (hnow : b.lastRefill ≤ now) (hcost : 0 ≤ cost)
    (hlo : 0 ≤ b.tokens) (hhi : b.tokens ≤ b.maxTokens) :
    0 ≤ (checkLimit now cost b).1.tokens ∧
    (checkLimit now cost b).1.tokens ≤ (checkLimit now cost b).1.maxTokens ∧
    (checkLimit now cost b).1.lastRefill = now ∧
    (checkLimit now cost b).1.maxTokens = b.maxTokens ∧
    (checkLimit now cost b).1.refillRate = b.refillRate := by
  have hmax : (0 : ℚ) ≤ b.maxTokens := le_trans hlo hhi
  have hadd : (0 : ℚ) ≤ (now - b.lastRefill) / 1000 * b.refillRate := by
    apply mul_nonneg _ hrate
    apply div_nonneg _ (by norm_num)
    linarith
  have hrefill_lo : 0 ≤ (refillBucket now b).tokens := by
    simp only [refillBucket, le_min_iff]
    constructor
    · exact hmax
    · linarith
  have hrefill_hi : (refillBucket now b).tokens ≤ b.maxTokens := by
    simp only [refillBucket]
    exact min_le_left _ _
  unfold checkLimit
  by_cases h : (refillBucket now b).tokens ≥ cost
  · simp only [h, if_true]
    refine ⟨by linarith, by simpa [refillBucket] using (by linarith : (refillBucket now b).tokens - cost ≤ b.maxTokens), rfl, rfl, rfl⟩
  · simp only [h, if_false]
    exact ⟨hrefill_lo, by simp only [refillBucket] at hrefill_hi ⊢; exact hrefill_hi, rfl, rfl, rfl⟩

/-- C7: over any sequence of `checkLimit` calls with non-negative costs and
non-decreasing `Date.now()` timestamps, the bucket satisfies
`0 ≤ tokens ≤ maxTokens` after every operation (i.e. after every prefix of
the call sequence). -/
theorem c7_token_bucket_invariant (b : TokenBucket) (calls : List (ℚ × ℚ))
    (hrate : 0 ≤ b.refillRate)
    (hlo : 0 ≤ b.tokens) (hhi : b.tokens ≤ b.maxTokens)
    (htime : List.Chain (fun t₁ t₂ => t₁ ≤ t₂) b.lastRefill (calls.map Prod.fst))
    (hcost : ∀ c ∈ calls, 0 ≤ c.2) :
    ∀ n, 0 ≤ (runCalls b (calls.take n)).tokens ∧
      (runCalls b (calls.take n)).tokens ≤ (runCalls b (calls.take n)).maxTokens := by
  induction calls generalizing b with
  | nil =>
    intro n
    simpa [runCalls] using ⟨hlo, hhi⟩
  | cons c rest ih =>
    intro n
    match n with
    | 0 => simpa [runCalls] using ⟨hlo, hhi⟩
    | Nat.succ m =>
      obtain ⟨now, cost⟩ := c
      simp only [List.map_cons, List.chain_cons] at htime
      have hstep := checkLimit_preserves_inv now cost b hrate htime.1
          (hcost (now, cost) (List.mem_cons_self _ _)) hlo hhi
      have hrate' : 0 ≤ (checkLimit now cost b).1.refillRate := by
        rw [hstep.2.2.2.2]; exact hrate
      have htime' : List.Chain (fun t₁ t₂ => t₁ ≤ t₂)
          (checkLimit now cost b).1.lastRefill (rest.map Prod.fst) := by
        rw [hstep.2.2.1]; exact htime.2
      have hcost' : ∀ c ∈ rest, 0 ≤ c.2 := fun c hc => hcost c (List.mem_cons_of_mem _ hc)
      have := ih (checkLimit now cost b).1 hrate' hstep.1 hstep.2.1 htime' hcost' m
      simpa [runCalls, List.take_succ_cons] using this

/-- C7 witness: three cost-1 calls at time 0 against a freshly full default
bucket (`maxTokens = 2`, `refillRate = 1`). -/
theorem c7_token_bucket_invariant_witness :
    0 ≤ (runCalls { tokens := 2, lastRefill := 0, maxTokens := 2, refillRate := 1 }
          ([((0 : ℚ), (1 : ℚ)), (0, 1), (0, 1)].take 3)).tokens ∧
    (runCalls { tokens := 2, lastRefill := 0, maxTokens := 2, refillRate := 1 }
          ([((0 : ℚ), (1 : ℚ)), (0, 1), (0, 1)].take 3)).tokens ≤
      (runCalls { tokens := 2, lastRefill := 0, maxTokens := 2, refillRate := 1 }
          ([((0 : ℚ), (1 : ℚ)), (0, 1), (0, 1)].take 3)).maxTokens :=
  c7_token_bucket_invariant
    { tokens := 2, lastRefill := 0, maxTokens := 2, refillRate := 1 }
    [((0 : ℚ), (1 : ℚ)), (0, 1), (0, 1)]
    (by norm_num) (by norm_num) (by norm_num)
    (by simp [List.chain_cons]) (by decide) 3

/-! ## Auth manager (`src/security/auth-manager.ts`) -/

/-- An `AuthContext` (auth-manager.ts lines 67–71). -/
structure AuthContext where
  apiKeyId : String
  permissions : List String
  authenticated : Bool

/-- `AuthManager.hasPermission` (auth-manager.ts lines 152–181): wildcard
`*`, exact match, or a pattern ending in `:*` whose `slice(0, -1)` (the
pattern minus the `*`) is a prefix of the required permission.  The
`authEnabled` flag is the manager's field. -/
def hasPermission (authEnabled : Bool) (ctx : AuthContext) (permission : String) : Bool :=
  if !authEnabled then true
  else if ctx.permissions.contains "*" then true
  else if ctx.permissions.contains permission then true
  else ctx.permissions.any (fun perm =>
    perm.endsWith ":*" && permission.startsWith (perm.dropRight 1))

/-- The matching rules as the specification words them: the list contains
`*`, or the exact permission, or a pattern ending in `:*` such that the
required permission starts with the pattern minus the trailing `*`. -/
def permissionAllowedSpec (perms : List String) (p : String) : Prop :=
  "*" ∈ perms ∨ p ∈ perms ∨
    ∃ pat ∈ perms, pat.endsWith ":*" = true ∧ p.startsWith (pat.dropRight 1) = true

/-- C8: with authentication enabled, `hasPermission` allows exactly under
the specification's three matching rules, and denies otherwise. -/
theorem c8_hasPermission_iff (ctx : AuthContext) (p : String) :
    hasPermission true ctx p = true ↔ permissionAllowedSpec ctx.permissions p := by
  unfold hasPermission permissionAllowedSpec
  cases h1 : ctx.permissions.contains "*" <;>
    cases h2 : ctx.permissions.contains p <;>
    simp_all [List.any_eq_true, List.elem_eq_mem]

/-! ## Backend client process state (`src/mcp/mcp-client.ts`) -/

/-- A Node `ChildProcess` handle as the client observes it: `killed` is
Node's `ChildProcess.killed` (true only after `kill()` was called on it);
`exitEmitted` records whether the process has emitted its `exit` event. -/
structure ProcHandle where
  killed : Bool
  exitEmitted : Bool

/-- The `process` field of an `MCPClient` (`null` before `start` and after
`stop`). -/
structure MCPClientProc where
  proc : Option ProcHandle

/-- `MCPClient.isRunning` (mcp-client.ts lines 402–404):
`process !== null && !process.killed`. -/
def isRunning (s : MCPClientProc) : Bool :=
  match s.proc with
  | none => false
  | some p => !p.killed

/-- The `exit` handler installed by `MCPClient.start` (mcp-client.ts lines
260–262): it only logs; no field of the client changes, so the only state
change is that the exit event has now been emitted. -/
def onChildExit (s : MCPClientProc) : MCPClientProc :=
  match s.proc with
  | none => s
  | some p => { proc := some { p with exitEmitted := true } }

/-- A freshly spawned, not-yet-exited child. -/
def spawnedClient : MCPClientProc := { proc := some { killed := false, exitEmitted := false } }

/-- C6: a client whose child process exited on its own (no `stop()` call)
still reports `isRunning() = true`: the exit handler records nothing and
`ChildProcess.killed` is only set by `kill()`.  The claim (and the spec's
"true iff the process exists and has not emitted exit") requires `false`
here. -/
theorem c6_isRunning_after_self_exit :
    (onChildExit spawnedClient).proc = some { killed := false, exitEmitted := true } ∧
    isRunning (onChildExit spawnedClient) = true :=
  ⟨rfl, rfl⟩

/-- The environment given to the spawned child (mcp-client.ts line 231):
`{ ...process.env, ...this.config.env }` — plain JS spread merge, the
config value shadowing the inherited one.  No `${NAME}` scanning happens
anywhere in the codebase. -/
def childEnvLookup (procEnv cfgEnv : List (String × String)) (k : String) : Option String :=
  match cfgEnv.lookup k with
  | some v => some v
  | none => procEnv.lookup k

/-- C5: with the aggregator environment holding `BRAVE_API_KEY=real-key-123`
and the backend config `env` mapping `BRAVE_API_KEY` to the literal
`${BRAVE_API_KEY}` (the form the README documents), the child receives the
unexpanded literal, not the aggregator's value. -/
theorem c5_env_reference_not_expanded :
    childEnvLookup [("BRAVE_API_KEY", "real-key-123")]
        [("BRAVE_API_KEY", "$\x7bBRAVE_API_KEY\x7d")] "BRAVE_API_KEY"
      = some "$\x7bBRAVE_API_KEY\x7d" ∧
    ("$\x7bBRAVE_API_KEY\x7d" : String) ≠ "real-key-123" :=
  ⟨rfl, by decide⟩

/-! ## Backend manager (`src/mcp/mcp-client-manager.ts`) -/

/-- What `startAll`/`aggregateTools` observe of one backend client:
whether `start()` resolves (and the error it rejects with otherwise),
and whether/what `listTools()` returns. -/
structure BackendSim where
  startOk : Bool
  startErrMsg : String
  listOk : Bool
  tools : List (String × String)

/-- An aggregated tool entry (mcp-client-manager.ts lines 13–19). -/
structure AggregatedToolMetadata where
  name : String
  description : String
  serverName : String
  originalName : String

/-- `MCPClientManager.aggregateTools` (lines 85–112): for each client,
qualify its tools as `<server>.<tool>`; a client whose `listTools` throws
is caught and simply contributes nothing. -/
def aggregateTools (clients : List (String × BackendSim)) :
    List (String × AggregatedToolMetadata) :=
  clients.foldl (fun acc c =>
    if c.2.listOk then
      acc ++ c.2.tools.map (fun t =>
        (c.1 ++ "." ++ t.1,
         { name := c.1 ++ "." ++ t.1, description := t.2,
           serverName := c.1, originalName := t.1 }))
    else acc) []

/-- `MCPClientManager.startAll` (lines 46–65): each start task rethrows its
client's failure, and the results are joined with `Promise.all`, which
rejects with the (first) failure; `aggregateTools` runs only when every
backend started. -/
def startAll (clients : List (String × BackendSim)) :
    Except String (List (String × AggregatedToolMetadata)) :=
  match clients.find? (fun c => !c.2.startOk) with
  | some c => Except.error c.2.startErrMsg
  | none => Except.ok (aggregateTools clients)

/-- The `initialize` handler of `handleRequest` (index.ts lines 134–198):
on a `startAll` rejection it audits a `system`-type failure event and
replies with a `ConfigurationError` shaped into a JSON-RPC error; on
success it audits success and the aggregated catalog is what the server
serves. -/
def initializeHandler (clients : List (String × BackendSim)) :
    AuditEventShape × Except JsonRpcErrorOut (List (String × AggregatedToolMetadata)) :=
  match startAll clients with
  | Except.error msg =>
      ({ type := "system", level := "error", action := "initialize",
         result := "failure", detailsParameters := [] },
       Except.error (shapeError (Thrown.mcp
         { message := "Failed to initialize MCP servers: " ++ msg,
           code := "CONFIGURATION_ERROR", statusCode := 500, details := none })))
  | Except.ok catalog =>
      ({ type := "system", level := "info", action := "initialize",
         result := "success", detailsParameters := [] },
       Except.ok catalog)

/-- Two configured backends: `a` fails to spawn, `b` starts fine and
offers tool `say`. -/
def c3Backends : List (String × BackendSim) :=
  [("a", { startOk := false, startErrMsg := "spawn ENOENT", listOk := true, tools := [] }),
   ("b", { startOk := true, startErrMsg := "", listOk := true,
           tools := [("say", "Echo a message")] })]

/-- C3 counterexample: with backend `a` failing to start and backend `b`
healthy, `startAll` rejects outright — `initialize` answers with a
`CONFIGURATION_ERROR` JSON-RPC error and no catalog is built, so `b.say`
is not served.  The claim says startup completes and only `a`'s tools are
absent. -/
theorem c3_startAll_aborts_on_single_failure :
    startAll c3Backends = Except.error "spawn ENOENT" ∧
    (initializeHandler c3Backends).2
      = Except.error
          { code := -32000, message := "Failed to initialize MCP servers: spawn ENOENT",
            dataCode := "CONFIGURATION_ERROR", dataDetails := none } :=
  ⟨rfl, rfl⟩

/-- C3 (amended): a backend that fails to start aborts the whole startup:
`startAll` rejects, the dispatcher audits a `system` failure event and
returns a `CONFIGURATION_ERROR` JSON-RPC error (code `-32000`), and no
backend's tools are served.  (Only `aggregateTools` — reached when every
start succeeded — tolerates per-backend `listTools` failures.) -/
theorem c3_initialize_fails_when_any_backend_fails
    (clients : List (String × BackendSim))
    (h : ∃ c ∈ clients, c.2.startOk = false) :
    (∃ msg, startAll clients = Except.error msg) ∧
    (initializeHandler clients).1.type = "system" ∧
    (initializeHandler clients).1.result = "failure" ∧
    ∃ e, (initializeHandler clients).2 = Except.error e ∧
      e.dataCode = "CONFIGURATION_ERROR" ∧ e.code = -32000 := by
  have hp : (clients.find? (fun c => !c.2.startOk)).isSome := by
    rw [List.find?_isSome]
    obtain ⟨c, hc, hfalse⟩ := h
    exact ⟨c, hc, by simp [hfalse]⟩
  obtain ⟨c, hfind⟩ := Option.isSome_iff_exists.mp hp
  refine ⟨⟨c.2.startErrMsg, ?_⟩, ?_, ?_, ?_⟩ <;>
    simp [startAll, initializeHandler, hfind, shapeError, toMCPError]

/-- C3 witness: the amended statement evaluated on the two-backend
configuration above. -/
theorem c3_initialize_fails_witness :
    (initializeHandler c3Backends).1.result = "failure" ∧
    ∃ e, (initializeHandler c3Backends).2 = Except.error e ∧
      e.dataCode = "CONFIGURATION_ERROR" ∧ e.code = -32000 := by
  have h := c3_initialize_fails_when_any_backend_fails c3Backends
    ⟨("a", { startOk := false, startErrMsg := "spawn ENOENT", listOk := true, tools := [] }),
     by simp [c3Backends], rfl⟩
  exact ⟨h.2.2.1, h.2.2.2⟩

/-! ## Tool routing (`MCPClientManager.executeTool`, lines 135–166) -/

/-- JS `String.prototype.split` with a one-character separator, on char
lists: `"" → [""]`, `"a..b" → ["a","","b"]`, etc. -/
def splitOnCharList (c : Char) : List Char → List (List Char)
  | [] => [[]]
  | a :: rest =>
    if a == c then [] :: splitOnCharList c rest
    else
      match splitOnCharList c rest with
      | s :: ss => (a :: s) :: ss
      | [] => [[a]]

/-- `toolName.split('.')` as used by `executeTool`. -/
def jsSplitDot (s : String) : List String :=
  (splitOnCharList '.' s.toList).map String.mk

/-- What `executeTool` observes of one registered client: its
`isRunning()` answer. -/
structure ClientSim where
  running : Bool

/-- `MCPClientManager.executeTool` (lines 135–166): split on `.`, demand
exactly two parts, look the backend up, demand it running, then forward
the raw tool name to that backend's `callTool` (modelled by the `call`
oracle); a `callTool` rejection is re-wrapped.  All failures are plain JS
`Error`s. -/
def executeTool (clients : List (String × ClientSim))
    (call : String → String → Except String JValue) (toolName : String) :
    Except String JValue :=
  match jsSplitDot toolName with
  | [serverName, originalToolName] =>
    match clients.lookup serverName with
    | none => Except.error ("MCP server not found: " ++ serverName)
    | some client =>
      if !client.running then Except.error ("MCP server not running: " ++ serverName)
      else
        match call serverName originalToolName with
        | Except.ok r => Except.ok r
        | Except.error e =>
            Except.error ("Failed to execute tool " ++ toolName ++ ": " ++ e)
  | _ => Except.error ("Invalid tool name format: " ++ toolName ++ ". Expected \"serverName.toolName\"")

/-- A call oracle that is never consulted (no backend is registered). -/
def callNone : String → String → Except String JValue := fun _ _ => Except.error "unused"

/-- C4 counterexample: calling `xyz.anything` with no backend `xyz`
produces the plain error `MCP server not found: xyz`, which the dispatcher
shapes into a JSON-RPC error with code `-32000` and `data.code =
"INTERNAL_ERROR"` — neither `"TOOL_NOT_FOUND"` nor `"MCP_SERVER_ERROR"`
as the claim requires (the message does reference the missing backend). -/
theorem c4_unknown_backend_data_code :
    executeTool [] callNone "xyz.anything" = Except.error "MCP server not found: xyz" ∧
    (shapeError (Thrown.plain "MCP server not found: xyz")).code = -32000 ∧
    (shapeError (Thrown.plain "MCP server not found: xyz")).dataCode = "INTERNAL_ERROR" ∧
    "INTERNAL_ERROR" ≠ "TOOL_NOT_FOUND" ∧
    ("INTERNAL_ERROR" : String) ≠ "MCP_SERVER_ERROR" :=
  ⟨rfl, rfl, rfl, by decide, by decide⟩

/-- C4 (amended): `executeTool` rejects every name that does not split
into exactly two `.`-separated parts with the `Invalid tool name format`
error; an unknown backend yields `MCP server not found: <backend>`,
surfaced as JSON-RPC code `-32000` with `data.code = "INTERNAL_ERROR"`
and a message referencing the missing backend; a non-running backend
yields `MCP server not running: <backend>`; otherwise the suffix is
forwarded verbatim as the tool name to exactly the backend named by the
prefix. -/
theorem c4_executeTool_routing (clients : List (String × ClientSim))
    (call : String → String → Except String JValue) (toolName : String) :
    ((jsSplitDot toolName).length ≠ 2 →
      executeTool clients call toolName =
        Except.error ("Invalid tool name format: " ++ toolName
          ++ ". Expected \"serverName.toolName\"")) ∧
    (∀ s t, jsSplitDot toolName = [s, t] →
      (clients.lookup s = none →
        executeTool clients call toolName = Except.error ("MCP server not found: " ++ s) ∧
        (shapeError (Thrown.plain ("MCP server not found: " ++ s))).code = -32000 ∧
        (shapeError (Thrown.plain ("MCP server not found: " ++ s))).dataCode
          = "INTERNAL_ERROR") ∧
      (∀ client, clients.lookup s = some client →
        (client.running = false →
          executeTool clients call toolName
            = Except.error ("MCP server not running: " ++ s)) ∧
        (client.running = true →
          executeTool clients call toolName =
            match call s t with
            | Except.ok r => Except.ok r
            | Except.error e =>
                Except.error ("Failed to execute tool " ++ toolName ++ ": " ++ e)))) := by
  constructor
  · intro hlen
    unfold executeTool
    match h : jsSplitDot toolName with
    | [] => rfl
    | [a] => rfl
    | [a, b] => exact absurd (by rw [h]; rfl) hlen
    | a :: b :: c :: rest => rfl
  · intro s t h
    constructor
    · intro hnone
      refine ⟨?_, rfl, rfl⟩
      simp [executeTool, h, hnone]
    · intro client hsome
      constructor
      · intro hrun
        simp [executeTool, h, hsome, hrun]
      · intro hrun
        simp [executeTool, h, hsome, hrun]

/-- A backend whose `callTool` answers with `"<server>/<tool>"`, to make
the forwarded pair visible. -/
def callTag : String → String → Except String JValue :=
  fun s t => Except.ok (JValue.str (s ++ "/" ++ t))

/-- C4 witness: routing `echo.say` to a running backend `echo` forwards
the raw name `say` to it. -/
theorem c4_executeTool_routing_witness :
    executeTool [("echo", { running := true })] callTag "echo.say"
      = Except.ok (JValue.str "echo/say") := by
  have h := ((c4_executeTool_routing [("echo", { running := true })] callTag
      "echo.say").2 "echo" "say" rfl).2 { running := true } rfl
  simpa [callTag] using h.2 rfl

/-! ## Parallel executor (`src/performance/parallel-executor.ts`) -/

/-- A `ParallelExecutionRequest` (parallel-executor.ts lines 7–11);
the parameters payload plays no role in the control flow modelled here. -/
structure ParallelRequest where
  toolName : String
  id : Option String

/-- A `ParallelExecutionResult` reduced to the fields the claim is about. -/
structure ParallelResult where
  id : Option String
  toolName : String
  success : Bool

/-- `ParallelExecutor.executeSingle` (lines 112–168): resolves with
`success = true` iff `manager.executeTool` resolves (`execOk` is that
oracle; the `Promise.race` timeout is real time and outside the model). -/
def executeSingle (execOk : String → Bool) (r : ParallelRequest) : ParallelResult :=
  { id := r.id, toolName := r.toolName, success := execOk r.toolName }

/-- Fuel-indexed body of `createBatches`; the fuel is the item count, which
bounds the number of loop iterations whenever `batchSize ≥ 1`. -/
def createBatchesAux (batchSize : ℕ) : ℕ → List α → List (List α)
  | _, [] => []
  | 0, _ :: _ => []
  | Nat.succ fuel, a :: rest =>
    (a :: rest).take batchSize :: createBatchesAux batchSize fuel ((a :: rest).drop batchSize)

/-- `ParallelExecutor.createBatches` (lines 173–184): slice the request
list into consecutive chunks of `batchSize`.  (The source loop `i +=
batchSize` does not terminate for `batchSize = 0`; every use below has
`batchSize ≥ 1`, where the fuel never runs out.) -/
def createBatches (batchSize : ℕ) (items : List α) : List (List α) :=
  createBatchesAux batchSize items.length items

/-- The batch loop of `executeParallel` (lines 63–73): run a whole batch,
append its results, and stop after the first batch containing a failure
when `continueOnError` is false. -/
def runBatches (execOk : String → Bool) (continueOnError : Bool) :
    List (List ParallelRequest) → List ParallelResult
  | [] => []
  | batch :: rest =>
    let batchResults := batch.map (executeSingle execOk)
    if !continueOnError && batchResults.any (fun r => !r.success) then batchResults
    else batchResults ++ runBatches execOk continueOnError rest

/-- A `ParallelExecutionSummary` (lines 33–39). -/
structure ParallelExecutionSummary where
  total : ℕ
  successful : ℕ
  failed : ℕ
  results : List ParallelResult

/-- `ParallelExecutor.executeParallel` (lines 47–86), with the source's
defaults `maxConcurrency = 10`, `continueOnError = true` supplied at the
call sites below. -/
def executeParallel (execOk : String → Bool) (requests : List ParallelRequest)
    (maxConcurrency : ℕ) (continueOnError : Bool) : ParallelExecutionSummary :=
  let results := runBatches execOk continueOnError (createBatches maxConcurrency requests)
  { total := results.length
    successful := (results.filter (fun r => r.success)).length
    failed := (results.filter (fun r => !r.success)).length
    results := results }

/-- `executeSingle`'s success oracle instantiated with the real
`executeTool` model: success iff the routed call resolves. -/
def execOkOf (clients : List (String × ClientSim))
    (call : String → String → Except String JValue) : String → Bool :=
  fun toolName =>
    match executeTool clients call toolName with
    | Except.ok _ => true
    | Except.error _ => false

/-- Two requests that both fail (no backend `xyz` is registered). -/
def c9Requests : List ParallelRequest :=
  [{ toolName := "xyz.first", id := none }, { toolName := "xyz.second", id := none }]

/-- C9 counterexample: with the default `maxConcurrency = 10` and
`continueOnError = false`, a failing first item does NOT limit the summary
to one entry: the whole first batch — here both requests — is scheduled
and reported, so the summary has two result entries. -/
theorem c9_first_batch_fully_scheduled :
    (executeParallel (execOkOf [] callNone) c9Requests 10 false).total = 2 ∧
    (executeParallel (execOkOf [] callNone) c9Requests 10 false).results.map
        (fun r => r.toolName) = ["xyz.first", "xyz.second"] ∧
    (2 : ℕ) ≠ 1 :=
  ⟨rfl, rfl, by decide⟩

/-- One unfolding step of `createBatches` on a non-empty list. -/
theorem createBatches_cons (n : ℕ) (a : α) (l : List α) :
    createBatches n (a :: l)
      = (a :: l).take n :: createBatchesAux n l.length ((a :: l).drop n) := rfl

/-- C9 (amended): with `continueOnError = false` and a failing first item,
`executeParallel` schedules and reports exactly the first batch: the
results are the batch `requests.take maxConcurrency` run through
`executeSingle`, so the summary has `min maxConcurrency |requests|`
entries (exactly one only when `maxConcurrency = 1` or the list is a
singleton); no request beyond the first batch is scheduled. -/
theorem c9_executeParallel_stops_after_first_batch (execOk : String → Bool)
    (r : ParallelRequest) (rest : List ParallelRequest) (maxC : ℕ)
    (hpos : 0 < maxC) (hfail : execOk r.toolName = false) :
    (executeParallel execOk (r :: rest) maxC false).results
        = ((r :: rest).take maxC).map (executeSingle execOk) ∧
    (executeParallel execOk (r :: rest) maxC false).total
        = min maxC (rest.length + 1) := by
  obtain ⟨k, rfl⟩ : ∃ k, maxC = k + 1 := ⟨maxC - 1, (Nat.succ_pred_eq_of_pos hpos).symm⟩
  have hres : (executeParallel execOk (r :: rest) (k + 1) false).results
      = ((r :: rest).take (k + 1)).map (executeSingle execOk) := by
    simp only [executeParallel, createBatches_cons, runBatches, List.take_succ_cons,
      List.map_cons, List.any_cons, executeSingle, hfail, Bool.not_false, Bool.true_and,
      Bool.true_or, if_true]
  refine ⟨hres, ?_⟩
  have : (executeParallel execOk (r :: rest) (k + 1) false).total
      = (executeParallel execOk (r :: rest) (k + 1) false).results.length := rfl
  rw [this, hres, List.length_map, List.length_take]
  simp

/-- C9 witness: the amended statement at `maxConcurrency = 1` — exactly
one entry survives. -/
theorem c9_stops_after_first_batch_witness :
    (executeParallel (execOkOf [] callNone) c9Requests 1 false).results.length = 1 := by
  have h := c9_executeParallel_stops_after_first_batch (execOkOf [] callNone)
    { toolName := "xyz.first", id := none } [{ toolName := "xyz.second", id := none }]
    1 (by decide) rfl
  have hcalc := congrArg List.length h.1
  simpa using hcalc

/-! ## Input validator (`src/security/input-validator.ts`)

Two JS primitives appear as oracle parameters rather than as embedded
code: `regexTest pat s` is `new RegExp(pat).test(s)` (`none` when the
`RegExp` constructor throws), and `display v` is the `String(...)`
coercion used only to build error-message text. -/

/-- The `type` field of a `ToolParameter` (input-validator.ts line 414). -/
inductive PType where
  | string
  | number
  | boolean
  | object
  | array

/-- A `ToolParameter` schema entry (input-validator.ts lines 412–424);
an absent optional field is `none`, and `required` is the JS truthiness of
the optional `required` flag. -/
structure ToolParameter where
  name : String
  type : PType
  required : Bool
  enum : Option (List JValue)
  pattern : Option String
  minimum : Option ℚ
  maximum : Option ℚ
  minLength : Option ℕ
  maxLength : Option ℕ

/-- `InputValidator.validateString` (lines 499–530). -/
def validateString (regexTest : String → String → Option Bool)
    (display : JValue → String) (value : JValue) (p : ToolParameter) : Option String :=
  match value with
  | JValue.str s =>
    match p.enum with
    | some es =>
      if !(es.contains (JValue.str s)) then
        some ("Parameter " ++ p.name ++ " must be one of: "
          ++ String.intercalate ", " (es.map display))
      else validateStringAfterEnum regexTest s p
    | none => validateStringAfterEnum regexTest s p
  | _ => some ("Parameter " ++ p.name ++ " must be a string")
where
  /-- pattern and length checks, reached when the enum check passed -/
  validateStringAfterEnum (regexTest : String → String → Option Bool)
      (s : String) (p : ToolParameter) : Option String :=
    let afterPattern : Option String :=
      match p.pattern with
      | some pat =>
        match regexTest pat s with
        | none => some ("Invalid regex pattern for " ++ p.name)
        | some false =>
            some ("Parameter " ++ p.name ++ " does not match pattern: " ++ pat)
        | some true => none
      | none => none
    match afterPattern with
    | some e => some e
    | none =>
      match p.minLength with
      | some k =>
        if s.length < k then
          some ("Parameter " ++ p.name ++ " must be at least " ++ toString k ++ " characters")
        else validateStringMax s p
      | none => validateStringMax s p
  /-- the final maxLength check -/
  validateStringMax (s : String) (p : ToolParameter) : Option String :=
    match p.maxLength with
    | some k =>
      if s.length > k then
        some ("Parameter " ++ p.name ++ " must be at most " ++ toString k ++ " characters")
      else none
    | none => none

/-- `InputValidator.validateNumber` (lines 535–554); a JS `NaN` has
`typeof === 'number'` but fails the `isNaN` guard, yielding the same
message as a non-number. -/
def validateNumber (display : JValue → String) (value : JValue) (p : ToolParameter) :
    Option String :=
  match value with
  | JValue.num q =>
    match p.enum with
    | some es =>
      if !(es.contains (JValue.num q)) then
        some ("Parameter " ++ p.name ++ " must be one of: "
          ++ String.intercalate ", " (es.map display))
      else validateNumberRange display q p
    | none => validateNumberRange display q p
  | _ => some ("Parameter " ++ p.name ++ " must be a number")
where
  /-- minimum / maximum checks -/
  validateNumberRange (display : JValue → String) (q : ℚ) (p : ToolParameter) :
      Option String :=
    match p.minimum with
    | some m =>
      if q < m then some ("Parameter " ++ p.name ++ " must be >= " ++ display (JValue.num m))
      else validateNumberMax display q p
    | none => validateNumberMax display q p
  /-- the final maximum check -/
  validateNumberMax (display : JValue → String) (q : ℚ) (p : ToolParameter) :
      Option String :=
    match p.maximum with
    | some m =>
      if q > m then some ("Parameter " ++ p.name ++ " must be <= " ++ display (JValue.num m))
      else none
    | none => none

/-- `InputValidator.validateBoolean` (lines 559–564). -/
def validateBoolean (value : JValue) (p : ToolParameter) : Option String :=
  match value with
  | JValue.bool _ => none
  | _ => some ("Parameter " ++ p.name ++ " must be a boolean")

/-- `InputValidator.validateArray` (lines 569–583):
`minLength`/`maxLength` bound the item count. -/
def validateArray (value : JValue) (p : ToolParameter) : Option String :=
  match value with
  | JValue.arr xs =>
    match p.minLength with
    | some k =>
      if xs.length < k then
        some ("Parameter " ++ p.name ++ " must have at least " ++ toString k ++ " items")
      else validateArrayMax xs p
    | none => validateArrayMax xs p
  | _ => some ("Parameter " ++ p.name ++ " must be an array")
where
  /-- the final maxLength check -/
  validateArrayMax (xs : List JValue) (p : ToolParameter) : Option String :=
    match p.maxLength with
    | some k =>
      if xs.length > k then
        some ("Parameter " ++ p.name ++ " must have at most " ++ toString k ++ " items")
      else none
    | none => none

/-- `InputValidator.validateObject` (lines 588–593): requires a plain
object — not an array, not `null`, not a primitive. -/
def validateObject (value : JValue) (p : ToolParameter) : Option String :=
  match value with
  | JValue.obj _ => none
  | _ => some ("Parameter " ++ p.name ++ " must be an object")

/-- `InputValidator.validateType` (lines 474–493). -/
def validateType (regexTest : String → String → Option Bool)
    (display : JValue → String) (value : JValue) (p : ToolParameter) : Option String :=
  match p.type with
  | PType.string => validateString regexTest display value p
  | PType.number => validateNumber display value p
  | PType.boolean => validateBoolean value p
  | PType.array => validateArray value p
  | PType.object => validateObject value p

/-- `value === undefined || value === null` on the looked-up argument. -/
def isMissingValue : Option JValue → Bool
  | none => true
  | some JValue.null => true
  | some _ => false

/-- The per-parameter step of the first loop of
`validateToolParameters` (lines 437–455): required-missing error, silent
skip of a missing optional, or the type check. -/
def paramCheck (regexTest : String → String → Option Bool)
    (display : JValue → String) (parameters : List (String × JValue))
    (p : ToolParameter) : Option String :=
  let value := parameters.lookup p.name
  if p.required && isMissingValue value then
    some ("Required parameter missing: " ++ p.name)
  else if isMissingValue value then none
  else
    match value with
    | some v => validateType regexTest display v p
    | none => none

/-- `InputValidator.validateToolParameters` (lines 430–468): the
required/type loop over the schema followed by the unknown-parameter loop
over the argument keys; returns `(valid, errors)`. -/
def validateToolParameters (regexTest : String → String → Option Bool)
    (display : JValue → String) (schema : List ToolParameter)
    (parameters : List (String × JValue)) : Bool × List String :=
  let checkErrors := schema.filterMap (paramCheck regexTest display parameters)
  let knownParams := schema.map (fun p => p.name)
  let unknownErrors := parameters.filterMap (fun kv =>
    if knownParams.contains kv.1 then none else some ("Unknown parameter: " ++ kv.1))
  let errors := checkErrors ++ unknownErrors
  (errors.isEmpty, errors)

/-- Removing all pairs keyed `n` does not change lookups of other keys. -/
theorem lookup_filter_of_ne (args : List (String × JValue)) (n m : String) (h : m ≠ n) :
    (args.filter (fun kv => kv.1 != n)).lookup m = args.lookup m := by
  induction args with
  | nil => rfl
  | cons kv rest ih =>
    by_cases hk : kv.1 = n
    · subst hk
      have hm : (m == kv.1) = false := by simp [h]
      simp [List.filter_cons, List.lookup, hm, ih]
    · have hkeep : (kv.1 != n) = true := by simp [hk]
      by_cases hm : m = kv.1
      · subst hm
        simp [List.filter_cons, hkeep, List.lookup]
      · have hm2 : (m == kv.1) = false := by simp [hm]
        simp [List.filter_cons, hkeep, List.lookup, hm2, ih]

/-- After removing all pairs keyed `n`, looking up `n` finds nothing. -/
theorem lookup_filter_self (args : List (String × JValue)) (n : String) :
    (args.filter (fun kv => kv.1 != n)).lookup n = none := by
  induction args with
  | nil => rfl
  | cons kv rest ih =>
    by_cases hk : kv.1 = n
    · simp [List.filter_cons, hk, ih]
    · have hn : (n == kv.1) = false := by simp [Ne.symm hk]
      have hkeep : (kv.1 != n) = true := by simp [hk]
      simp [List.filter_cons, hkeep, List.lookup, hn, ih]

/-- C10: `validateToolParameters` treats a `null`-valued schema parameter
exactly like an absent one — a required parameter reports `Required
parameter missing: <name>`, and an optional one passes with no type,
enum, pattern, length or range check: the whole result is unchanged when
the `null` entry is removed from the argument map. -/
theorem c10_null_parameter_like_absent
    (regexTest : String → String → Option Bool) (display : JValue → String)
    (schema : List ToolParameter) (args : List (String × JValue)) (p : ToolParameter)
    (hmem : p ∈ schema)
    (hval : args.lookup p.name = some JValue.null) :
    (p.required = true →
      ("Required parameter missing: " ++ p.name)
        ∈ (validateToolParameters regexTest display schema args).2) ∧
    validateToolParameters regexTest display schema args
      = validateToolParameters regexTest display schema
          (args.filter (fun kv => kv.1 != p.name)) := by
  constructor
  · intro hreq
    have hc : paramCheck regexTest display args p
        = some ("Required parameter missing: " ++ p.name) := by
      unfold paramCheck
      rw [hval]
      simp [isMissingValue, hreq]
    have : ("Required parameter missing: " ++ p.name)
        ∈ schema.filterMap (paramCheck regexTest display args) :=
      List.mem_filterMap.mpr ⟨p, hmem, hc⟩
    simpa [validateToolParameters] using Or.inl this
  · have hpc : ∀ q, paramCheck regexTest display args q
        = paramCheck regexTest display (args.filter (fun kv => kv.1 != p.name)) q := by
      intro q
      by_cases hq : q.name = p.name
      · unfold paramCheck
        rw [hq, hval, lookup_filter_self]
        simp [isMissingValue]
      · unfold paramCheck
        rw [lookup_filter_of_ne _ _ _ hq]
    have hknown : (schema.map (fun r => r.name)).contains p.name = true := by
      simp only [List.elem_eq_mem, decide_eq_true_eq, List.mem_map]
      exact ⟨p, hmem, rfl⟩
    have hunk : ∀ l : List (String × JValue),
        (l.filter (fun kv => kv.1 != p.name)).filterMap (fun kv =>
          if (schema.map (fun r => r.name)).contains kv.1 then none
          else some ("Unknown parameter: " ++ kv.1))
        = l.filterMap (fun kv =>
          if (schema.map (fun r => r.name)).contains kv.1 then none
          else some ("Unknown parameter: " ++ kv.1)) := by
      intro l
      induction l with
      | nil => rfl
      | cons kv rest ih =>
        by_cases hk : kv.1 = p.name
        · have hdrop : (kv.1 != p.name) = false := by simp [hk]
          have hfkv : (if (List.map (fun r => r.name) schema).contains kv.1 = true
              then none else some ("Unknown parameter: " ++ kv.1)) = (none : Option String) := by
            rw [hk, hknown]
            simp
          simp only [List.filter_cons, hdrop, Bool.false_eq_true, if_false,
            List.filterMap_cons, hfkv, ih]
        · simp only [List.filter_cons]
          have hkeep : (kv.1 != p.name) = true := by simp [hk]
          rw [hkeep]
          simp only [if_true, List.filterMap_cons]
          rw [ih]
    simp only [validateToolParameters]
    rw [funext hpc, hunk args]

/-- The schema entry used by the C10 witness: a required string `q`. -/
def qParam : ToolParameter :=
  { name := "q", type := PType.string, required := true, enum := none,
    pattern := none, minimum := none, maximum := none,
    minLength := none, maxLength := none }

/-- A regex oracle that always matches (never consulted on the null path). -/
def regexAlways : String → String → Option Bool := fun _ _ => some true

/-- A display oracle (never consulted on the null path). -/
def displayEmpty : JValue → String := fun _ => ""

/-- C10 witness: a required string parameter bound to `null`. -/
theorem c10_null_parameter_witness :
    ("Required parameter missing: q")
        ∈ (validateToolParameters regexAlways displayEmpty [qParam] [("q", JValue.null)]).2 ∧
    validateToolParameters regexAlways displayEmpty [qParam] [("q", JValue.null)]
      = validateToolParameters regexAlways displayEmpty [qParam]
          ([("q", JValue.null)].filter (fun kv => kv.1 != qParam.name)) := by
  have h := c10_null_parameter_like_absent regexAlways displayEmpty
    [qParam] [("q", JValue.null)] qParam (List.mem_singleton.mpr rfl) rfl
  exact ⟨h.1 rfl, h.2⟩

end SearchMCP
